import Mathlib

/-!
Shallow embedding of the netconfAggregator-grafana backend plugin
(pkg/plugin/datasource.go and pkg/models/settings.go).

Go strings are modelled as Lean `String` (with `String.data : List Char` for
character-level scans).  Go `interface{}` (dynamic) values are modelled by
`GoDyn`; a missing JSON key and JSON `null` both become `GoDyn.null`, since
both make a Go type assertion `.(string)` fail in the same way.  The HTTP
exchange performed by `GetDeviceData` and the outcome of the external JSON
decoders (`encoding/json`) are supplied by an oracle argument (`NetResult`,
or an `Except` decode outcome), since they are library code outside this
repository; everything after those oracle points is translated from the
repository source.  A Go panic (a failing unchecked type assertion) is
modelled as `Option.none`.
-/

/-- Dynamic (Go `interface{}`) value as produced by `encoding/json` decoding
and by the fetcher's record processing. -/
inductive GoDyn where
  | str (s : String)
  | int (n : Int)
  | bool (b : Bool)
  | null
  deriving DecidableEq, Repr

/-- One upstream JSON record, restricted to the two keys the plugin reads
(`item["xml"]` and `item["timestamp"]`); an absent key is `GoDyn.null`. -/
structure JRecord where
  xml : GoDyn
  timestamp : GoDyn
  deriving DecidableEq, Repr

/-- One processed point of `GetDeviceData`: the map
`{"timestamp": item["timestamp"], "value": ...}` built in the switch. -/
structure Point where
  timestamp : GoDyn
  value : GoDyn
  deriving DecidableEq, Repr

/-- Outcome of the HTTP exchange in `GetDeviceData` (everything between
`http.NewRequest` and `json.Unmarshal` of the body): request construction
failure, transport failure (`client.Do`), body read failure (`io.ReadAll`),
or a response with a status code, raw body text and the JSON decode outcome
of that body. -/
inductive NetResult where
  | requestError (e : String)
  | transportError (e : String)
  | readError (e : String)
  | response (status : Nat) (body : String) (json : Except String (List JRecord))

/-- Go `strings.HasPrefix s pre` (byte-wise prefix test). -/
def goHasPrefix (s pre : String) : Bool :=
  pre.data.isPrefixOf s.data

/-- Character-list scan underlying `strings.Contains`: does `ns` occur as a
contiguous run inside `hs`? -/
def containsAux : List Char → List Char → Bool
  | hs, ns =>
    ns.isPrefixOf hs ||
      match hs with
      | [] => false
      | _ :: t => containsAux t ns

/-- Go `strings.Contains h n`: `n` occurs as a contiguous substring of `h`. -/
def goStringsContains (h n : String) : Bool :=
  containsAux h.data n.data

/-- The digit test of the regexp `\d` (ASCII `0`-`9` only). -/
def goIsDigit (c : Char) : Bool :=
  '0' ≤ c && c ≤ '9'

/-- `regexp.MustCompile("\\d+").FindString input`: the leftmost maximal run
of decimal digits, empty if there is none. -/
def findFirstDigitRun (s : List Char) : List Char :=
  (s.dropWhile (fun c => !goIsDigit c)).takeWhile goIsDigit

/-- Decimal value of a digit run. -/
def digitsToNat (ds : List Char) : Nat :=
  ds.foldl (fun a c => 10 * a + (c.toNat - 48)) 0

/-- Go's 64-bit `math.MaxInt64`. -/
def maxInt64 : Nat := 9223372036854775807

/-- `strconv.Atoi` applied to a non-empty unsigned digit string on a 64-bit
platform, with the error discarded as in `extractFirstInteger`: the decimal
value, saturated at `math.MaxInt64` when out of range (on range error
`strconv.ParseInt` returns the maximum value together with `ErrRange`, and
the caller drops the error). -/
def goAtoiDropErr (ds : List Char) : Int :=
  let n := digitsToNat ds
  if n ≤ maxInt64 then (n : Int) else (maxInt64 : Int)

/-- `extractFirstInteger` (datasource.go lines 220-228). -/
def extractFirstInteger (input : String) : Int :=
  let m := findFirstDigitRun input.data
  if m = [] then 0 else goAtoiDropErr m

/-- The record-processing loop of `GetDeviceData` (datasource.go lines
188-214): skip records whose `xml` field is not a string, then switch on the
query type. -/
def processRecords (qtype qstring : String) : List JRecord → Except String (List Point)
  | [] => .ok []
  | item :: rest =>
    match item.xml with
    | GoDyn.str xmlData =>
      if qtype = "int" then
        (processRecords qtype qstring rest).map
          (fun ps => ⟨item.timestamp, GoDyn.int (extractFirstInteger xmlData)⟩ :: ps)
      else if qtype = "contains" then
        (processRecords qtype qstring rest).map
          (fun ps => ⟨item.timestamp, GoDyn.bool (goStringsContains xmlData qstring)⟩ :: ps)
      else
        .error ("unsupported query type: " ++ qtype)
    | _ => processRecords qtype qstring rest

/-- `(*DeviceDataFetcher).GetDeviceData` (datasource.go lines 123-217).
The HTTP exchange is the `net` oracle argument; the four validation guards,
the status check, the JSON-decode failure path and the record processing are
translated from the source. -/
def getDeviceData (address deviceID xpathQuery qtype qstring : String)
    (net : NetResult) : Except String (List Point) :=
  if address = "" then
    .error "datasource address is not configured"
  else if !(goHasPrefix address "http://" || goHasPrefix address "https://") then
    .error "datasource address must include http:// or https://"
  else if deviceID = "" then
    .error "device ID is required"
  else if xpathQuery = "" then
    .error "xpathQuery is required"
  else
    match net with
    | .requestError e => .error ("failed to create HTTP request: " ++ e)
    | .transportError e => .error ("failed to fetch device data: " ++ e)
    | .readError e => .error ("failed to read response: " ++ e)
    | .response status body json =>
      if status ≠ 200 then
        .error ("API returned status " ++ toString status ++ ": " ++ body)
      else
        match json with
        | .error e => .error ("failed to parse response JSON: " ++ e)
        | .ok responseData => processRecords qtype qstring responseData

/-- A Go `time.Time` value, abstracted to an opaque wrapper; only the zero
value is distinguished by the claims. -/
structure GoTime where
  unixNano : Int
  deriving DecidableEq, Repr

/-- The zero `time.Time` value. -/
def GoTime.zero : GoTime := ⟨0⟩

/-- The statement `timestamp, _ := time.Parse(time.RFC3339, s)` (datasource.go
line 97).  The RFC3339 parser itself is library code, supplied as the oracle
`p` (`none` = parse error); `time.Parse` returns the zero `Time` together
with the error on failure, and the error is discarded by `_`. -/
def goTimeParseDropErr (p : String → Option GoTime) (s : String) : GoTime :=
  match p s with
  | some t => t
  | none => GoTime.zero

/-- The dynamically-typed `values interface{}` slice of `QueryData`: either a
`[]int64` or a `[]bool`. -/
inductive FrameValues where
  | ints (vs : List Int)
  | bools (vs : List Bool)
  deriving DecidableEq, Repr

/-- One iteration's value handling in the `QueryData` frame-assembly loop
(datasource.go lines 100-104): for type `int`, the unchecked assertions
`values.([]int64)` and `item["value"].(int)`; for type `contains`,
`values.([]bool)` and `item["value"].(bool)`; any other type appends
nothing.  `none` models a panic. -/
def appendValue (qtype : String) (v : GoDyn) (acc : FrameValues) : Option FrameValues :=
  if qtype = "int" then
    match acc, v with
    | FrameValues.ints vs, GoDyn.int n => some (FrameValues.ints (vs ++ [n]))
    | _, _ => none
  else if qtype = "contains" then
    match acc, v with
    | FrameValues.bools vs, GoDyn.bool b => some (FrameValues.bools (vs ++ [b]))
    | _, _ => none
  else
    some acc

/-- The frame-assembly loop of `QueryData` (datasource.go lines 96-105):
per item, the unchecked assertion `item["timestamp"].(string)`, the RFC3339
parse with discarded error, and the per-type value append.  `none` models a
panic. -/
def assembleLoop (p : String → Option GoTime) (qtype : String) :
    List Point → List GoTime → FrameValues → Option (List GoTime × FrameValues)
  | [], ts, vs => some (ts, vs)
  | item :: rest, ts, vs =>
    match item.timestamp with
    | GoDyn.str s =>
      match appendValue qtype item.value vs with
      | none => none
      | some vs2 => assembleLoop p qtype rest (ts ++ [goTimeParseDropErr p s]) vs2
    | _ => none

/-- One per-query response recorded into `response.Responses[q.RefID]`:
either `backend.ErrDataResponse(status, message)` or a frame of parallel
`time` and `value` columns. -/
inductive DataResponse where
  | err (status : Nat) (message : String)
  | frame (times : List GoTime) (values : FrameValues)
  deriving DecidableEq, Repr

/-- Grafana's `backend.StatusBadRequest`. -/
def statusBadRequest : Nat := 400

/-- Grafana's `backend.StatusInternal`. -/
def statusInternal : Nat := 500

/-- The decoded `queryModel` (datasource.go lines 230-235). -/
structure QueryModel where
  type : String
  containsString : String
  queryText : String
  device : String
  deriving DecidableEq, Repr

/-- One incoming `backend.DataQuery`: its `RefID` and the outcome of
`json.Unmarshal(q.JSON, &qm)` (the JSON decoder is library code, so the
decode outcome is part of the input). -/
structure GoQuery where
  refID : String
  decoded : Except String QueryModel

/-- The body of one iteration of the `QueryData` loop (datasource.go lines
68-115), as an independent per-query handler: decode check, fetch, type
dispatch and frame assembly.  `none` models a panic escaping the iteration.
`net` maps the fetcher's `(device, xpathQuery)` pair to the HTTP outcome. -/
def queryDataStep (addr : String) (p : String → Option GoTime)
    (net : String → String → NetResult) (q : GoQuery) : Option DataResponse :=
  match q.decoded with
  | .error e => some (DataResponse.err statusBadRequest ("json unmarshal: " ++ e))
  | .ok qm =>
    match getDeviceData addr qm.device qm.queryText qm.type qm.containsString
        (net qm.device qm.queryText) with
    | .error e => some (DataResponse.err statusInternal ("data fetch error: " ++ e))
    | .ok deviceData =>
      if qm.type = "int" then
        match assembleLoop p qm.type deviceData [] (FrameValues.ints []) with
        | none => none
        | some (ts, vs) => some (DataResponse.frame ts vs)
      else if qm.type = "contains" then
        match assembleLoop p qm.type deviceData [] (FrameValues.bools []) with
        | none => none
        | some (ts, vs) => some (DataResponse.frame ts vs)
      else
        some (DataResponse.err statusBadRequest ("unsupported query type: " ++ qm.type))

/-- `(*Datasource).QueryData` (datasource.go lines 64-117): the loop over
`req.Queries`, written out iteration by iteration.  The result is the
ordered sequence of assignments `response.Responses[q.RefID] = ...`; `none`
models a panic aborting the whole handler. -/
def queryDataGo (addr : String) (p : String → Option GoTime)
    (net : String → String → NetResult) : List GoQuery → Option (List (String × DataResponse))
  | [] => some []
  | q :: rest =>
    match q.decoded with
    | .error e =>
      (queryDataGo addr p net rest).map
        (fun rs => (q.refID, DataResponse.err statusBadRequest ("json unmarshal: " ++ e)) :: rs)
    | .ok qm =>
      match getDeviceData addr qm.device qm.queryText qm.type qm.containsString
          (net qm.device qm.queryText) with
      | .error e =>
        (queryDataGo addr p net rest).map
          (fun rs => (q.refID, DataResponse.err statusInternal ("data fetch error: " ++ e)) :: rs)
      | .ok deviceData =>
        if qm.type = "int" then
          match assembleLoop p qm.type deviceData [] (FrameValues.ints []) with
          | none => none
          | some (ts, vs) =>
            (queryDataGo addr p net rest).map
              (fun rs => (q.refID, DataResponse.frame ts vs) :: rs)
        else if qm.type = "contains" then
          match assembleLoop p qm.type deviceData [] (FrameValues.bools []) with
          | none => none
          | some (ts, vs) =>
            (queryDataGo addr p net rest).map
              (fun rs => (q.refID, DataResponse.frame ts vs) :: rs)
        else
          (queryDataGo addr p net rest).map
            (fun rs =>
              (q.refID,
                DataResponse.err statusBadRequest ("unsupported query type: " ++ qm.type)) :: rs)

/-- The specification-side independent batch handler: every query mapped on
its own through `queryDataStep`, keyed by its `RefID`. -/
def perQueryResponses (addr : String) (p : String → Option GoTime)
    (net : String → String → NetResult) (qs : List GoQuery) :
    Option (List (String × DataResponse)) :=
  qs.mapM (fun q => (queryDataStep addr p net q).map (fun r => (q.refID, r)))

/-- `models.PluginSettings` (settings.go lines 10-12). -/
structure PluginSettings where
  address : String
  deriving DecidableEq, Repr

/-- `models.LoadPluginSettings` (settings.go lines 14-22); the input is the
outcome of `json.Unmarshal(source.JSONData, &settings)`. -/
def loadPluginSettings (unmarshal : Except String PluginSettings) :
    Except String PluginSettings :=
  match unmarshal with
  | .error e => .error ("could not unmarshal PluginSettings json: " ++ e)
  | .ok s => .ok s

/-- Health statuses of `backend.CheckHealthResult`. -/
inductive HealthStatus where
  | ok
  | error
  deriving DecidableEq, Repr

/-- A `backend.CheckHealthResult`. -/
structure HealthResult where
  status : HealthStatus
  message : String
  deriving DecidableEq, Repr

/-- `(*Datasource).CheckHealth` (datasource.go lines 269-291), with the
settings-JSON decode outcome as input.  The source performs no HTTP call,
which the embedding reflects by taking no network oracle. -/
def checkHealth (unmarshal : Except String PluginSettings) : HealthResult :=
  match loadPluginSettings unmarshal with
  | .error _ => ⟨HealthStatus.error, "Unable to load settings"⟩
  | .ok config =>
    if config.address = "" then ⟨HealthStatus.error, "Address is missing"⟩
    else ⟨HealthStatus.ok, "Data source is working"⟩

/-- Specification-side value of claim C1 ("the numeric value of the first
(leftmost) run of decimal digits; 0 when there is none"), written from the
spec's words for comparison with `extractFirstInteger`. -/
def specFirstRunValue (s : String) : Nat :=
  digitsToNat (findFirstDigitRun s.data)

example : extractFirstInteger "<load>42</load>" = 42 := by decide
example : extractFirstInteger "abc" = 0 := by decide
example : goStringsContains "<load>42</load>" "load" = true := by decide
example : goStringsContains "abc" "abd" = false := by decide
example : extractFirstInteger "99999999999999999999" = 9223372036854775807 := by decide
example : specFirstRunValue "99999999999999999999" = 99999999999999999999 := by decide

/-! ## Helper lemmas -/

theorem containsAux_iff (hs ns : List Char) : containsAux hs ns = true ↔ ns <:+: hs := by
  induction hs with
  | nil =>
    rw [containsAux]
    simp [List.isPrefixOf_iff_prefix]
  | cons a t ih =>
    rw [containsAux]
    simp [List.isPrefixOf_iff_prefix, ih, List.infix_cons_iff]

theorem extractFirstInteger_eq_min (s : String) :
    extractFirstInteger s = ((min (specFirstRunValue s) maxInt64 : Nat) : Int) := by
  unfold extractFirstInteger specFirstRunValue goAtoiDropErr
  by_cases h : findFirstDigitRun s.data = []
  · simp [h, digitsToNat]
  · simp only [h, if_false]
    by_cases h2 : digitsToNat (findFirstDigitRun s.data) ≤ maxInt64
    · simp [h2, Nat.min_eq_left h2]
    · simp [h2, Nat.min_eq_right (le_of_not_le h2)]

theorem findFirstDigitRun_eq_nil_of_no_digit {s : List Char}
    (h : ∀ c ∈ s, goIsDigit c = false) : findFirstDigitRun s = [] := by
  unfold findFirstDigitRun
  have : s.dropWhile (fun c => !goIsDigit c) = [] := by
    rw [List.dropWhile_eq_nil_iff]
    intro c hc
    simp [h c hc]
  simp [this]

theorem processRecords_int_eq (qstring : String) (records : List JRecord) :
    processRecords "int" qstring records
      = .ok (records.filterMap (fun r =>
          match r.xml with
          | GoDyn.str x => some ⟨r.timestamp, GoDyn.int (extractFirstInteger x)⟩
          | _ => none)) := by
  induction records with
  | nil => rfl
  | cons r rest ih =>
    cases hx : r.xml <;> simp [processRecords, hx, ih, Except.map]

theorem processRecords_contains_eq (qstring : String) (records : List JRecord) :
    processRecords "contains" qstring records
      = .ok (records.filterMap (fun r =>
          match r.xml with
          | GoDyn.str x => some ⟨r.timestamp, GoDyn.bool (goStringsContains x qstring)⟩
          | _ => none)) := by
  induction records with
  | nil => rfl
  | cons r rest ih =>
    cases hx : r.xml <;> simp [processRecords, hx, ih, Except.map]

/-! ## Claims C1, C2, C4 -/

/-- Claim C1, counterexample: on an input whose first digit run is the
20-digit `99999999999999999999`, `extractFirstInteger` returns the saturated
`strconv` value `9223372036854775807` (math.MaxInt64), not the run's numeric
value `99999999999999999999`. -/
theorem extractFirstInteger_overflow_cex :
    extractFirstInteger "99999999999999999999" = 9223372036854775807 ∧
    specFirstRunValue "99999999999999999999" = 99999999999999999999 ∧
    ((9223372036854775807 : Int) ≠ ((99999999999999999999 : Nat) : Int)) :=
  ⟨by decide, by decide, by decide⟩

/-- Claim C1 (amended): for every input string, `extractFirstInteger`
returns the numeric value of the first (leftmost) run of decimal digits
saturated at `math.MaxInt64` (values above `2^63 - 1` come back as
`2^63 - 1`), with no sign or decimal-point handling; for every input with no
decimal digit, it returns `0`. -/
theorem extractFirstInteger_spec (s : String) :
    extractFirstInteger s = ((min (specFirstRunValue s) maxInt64 : Nat) : Int) ∧
    ((∀ c ∈ s.data, goIsDigit c = false) → extractFirstInteger s = 0) := by
  refine ⟨extractFirstInteger_eq_min s, fun h => ?_⟩
  unfold extractFirstInteger
  simp [findFirstDigitRun_eq_nil_of_no_digit h]

/-- Witness for `extractFirstInteger_spec` at concrete digit-free input. -/
theorem extractFirstInteger_spec_witness : extractFirstInteger "no digits here!" = 0 :=
  (extractFirstInteger_spec "no digits here!").2 (by decide)

/-- Claim C2: the value extracted for a `contains` query over an XML text is
exactly `strings.Contains`, and `strings.Contains h n` is true iff `n`
occurs as a literal, case-sensitive, unanchored substring (contiguous
infix) of `h`. -/
theorem contains_extraction_spec (h n : String) (ts : GoDyn) :
    processRecords "contains" n [⟨GoDyn.str h, ts⟩]
      = .ok [⟨ts, GoDyn.bool (goStringsContains h n)⟩] ∧
    (goStringsContains h n = true ↔ n.data <:+: h.data) := by
  constructor
  · rw [processRecords_contains_eq]
    rfl
  · exact containsAux_iff h.data n.data

theorem addr_ne_empty_of_scheme {addr : String}
    (h1 : (goHasPrefix addr "http://" || goHasPrefix addr "https://") = true) :
    addr ≠ "" := by
  intro h
  subst h
  simp [goHasPrefix] at h1

/-- Claim C4: for every upstream 200 response with a well-formed JSON array
and each supported query type, `GetDeviceData` succeeds and returns exactly
one extracted point per record whose `xml` field is a string, in upstream
record order (a `filterMap` of the upstream list, so no sorting or
deduplication by timestamp), silently skipping every record whose `xml`
field is missing or not a string. -/
theorem getDeviceData_order_and_skip (addr dev xp qstring body : String)
    (records : List JRecord)
    (h1 : (goHasPrefix addr "http://" || goHasPrefix addr "https://") = true)
    (h2 : dev ≠ "") (h3 : xp ≠ "") :
    getDeviceData addr dev xp "int" qstring (.response 200 body (.ok records))
      = .ok (records.filterMap (fun r =>
          match r.xml with
          | GoDyn.str x => some ⟨r.timestamp, GoDyn.int (extractFirstInteger x)⟩
          | _ => none)) ∧
    getDeviceData addr dev xp "contains" qstring (.response 200 body (.ok records))
      = .ok (records.filterMap (fun r =>
          match r.xml with
          | GoDyn.str x => some ⟨r.timestamp, GoDyn.bool (goStringsContains x qstring)⟩
          | _ => none)) := by
  have ha := addr_ne_empty_of_scheme h1
  constructor
  · simp [getDeviceData, ha, h1, h2, h3, processRecords_int_eq]
  · simp [getDeviceData, ha, h1, h2, h3, processRecords_contains_eq]

/-- Witness for `getDeviceData_order_and_skip`: a three-record upstream
array whose middle record lacks a string `xml` field produces two points in
upstream order. -/
theorem getDeviceData_order_and_skip_witness :
    getDeviceData "http://agg:8080" "d1" "/sys/load" "int" ""
        (.response 200 "" (.ok
          [⟨GoDyn.str "<load>42</load>", GoDyn.str "2024-01-01T00:00:00Z"⟩,
           ⟨GoDyn.null, GoDyn.str "2024-01-01T00:00:01Z"⟩,
           ⟨GoDyn.str "a7b", GoDyn.null⟩]))
      = .ok [⟨GoDyn.str "2024-01-01T00:00:00Z", GoDyn.int 42⟩,
             ⟨GoDyn.null, GoDyn.int 7⟩] :=
  ((getDeviceData_order_and_skip "http://agg:8080" "d1" "/sys/load" "" ""
      [⟨GoDyn.str "<load>42</load>", GoDyn.str "2024-01-01T00:00:00Z"⟩,
       ⟨GoDyn.null, GoDyn.str "2024-01-01T00:00:01Z"⟩,
       ⟨GoDyn.str "a7b", GoDyn.null⟩]
      (by decide) (by decide) (by decide)).1).trans (congrArg Except.ok (by decide))

/-! ## Claims C3, C5, C6 -/

/-- Claim C3: when the configured address is empty or lacks an `http://` or
`https://` prefix, or the device ID or xpath query is empty,
`GetDeviceData` fails with a descriptive error whose value is independent of
the HTTP exchange (no network call is consulted), with the two
address-specific messages as stated. -/
theorem getDeviceData_precondition_errors
    (address deviceID xpathQuery qtype qstring : String)
    (hbad : address = "" ∨
      (goHasPrefix address "http://" || goHasPrefix address "https://") = false ∨
      deviceID = "" ∨ xpathQuery = "") :
    (∀ net net2, getDeviceData address deviceID xpathQuery qtype qstring net
        = getDeviceData address deviceID xpathQuery qtype qstring net2) ∧
    (∃ e, ∀ net, getDeviceData address deviceID xpathQuery qtype qstring net = .error e) ∧
    (address = "" →
      ∀ net, getDeviceData address deviceID xpathQuery qtype qstring net
        = .error "datasource address is not configured") ∧
    (address ≠ "" →
      (goHasPrefix address "http://" || goHasPrefix address "https://") = false →
      ∀ net, getDeviceData address deviceID xpathQuery qtype qstring net
        = .error "datasource address must include http:// or https://") := by
  have key : ∃ e, ∀ net,
      getDeviceData address deviceID xpathQuery qtype qstring net = .error e := by
    by_cases h1 : address = ""
    · exact ⟨"datasource address is not configured", fun net => by simp [getDeviceData, h1]⟩
    · by_cases h2 : (goHasPrefix address "http://" || goHasPrefix address "https://") = false
      · exact ⟨"datasource address must include http:// or https://",
          fun net => by simp [getDeviceData, h1, h2]⟩
      · have h2b : (goHasPrefix address "http://" || goHasPrefix address "https://") = true :=
          eq_true_of_ne_false h2
        by_cases h3 : deviceID = ""
        · exact ⟨"device ID is required", fun net => by simp [getDeviceData, h1, h2b, h3]⟩
        · have h4 : xpathQuery = "" := by
            rcases hbad with hh | hh | hh | hh
            · exact absurd hh h1
            · exact absurd hh h2
            · exact absurd hh h3
            · exact hh
          exact ⟨"xpathQuery is required", fun net => by simp [getDeviceData, h1, h2b, h3, h4]⟩
  obtain ⟨e, he⟩ := key
  refine ⟨fun n1 n2 => (he n1).trans (he n2).symm, ⟨e, he⟩,
    fun h1 net => by simp [getDeviceData, h1],
    fun h1 h2 net => by simp [getDeviceData, h1, h2]⟩

/-- Witness for `getDeviceData_precondition_errors`: the bad-scheme address
`ftp://host` and the empty address produce the two stated error messages on
a concrete network outcome. -/
theorem getDeviceData_precondition_errors_witness :
    getDeviceData "ftp://host" "d1" "/sys" "int" "" (.response 200 "" (.ok []))
      = .error "datasource address must include http:// or https://" ∧
    getDeviceData "" "d1" "/sys" "int" "" (.response 200 "" (.ok []))
      = .error "datasource address is not configured" := by
  constructor
  · exact (getDeviceData_precondition_errors "ftp://host" "d1" "/sys" "int" ""
      (Or.inr (Or.inl (by decide)))).2.2.2 (by decide) (by decide) _
  · exact (getDeviceData_precondition_errors "" "d1" "/sys" "int" ""
      (Or.inl rfl)).2.2.1 rfl _

/-- Claim C5: a non-200 upstream response makes `GetDeviceData` fail with an
error carrying the upstream status code and the response body text, and the
query handler records it as a server-error (internal) response wrapping that
message. -/
theorem non200_terminal (addr dev xp qt qs body refID : String) (status : Nat)
    (json : Except String (List JRecord)) (p : String → Option GoTime)
    (h1 : (goHasPrefix addr "http://" || goHasPrefix addr "https://") = true)
    (h2 : dev ≠ "") (h3 : xp ≠ "") (h4 : status ≠ 200) :
    getDeviceData addr dev xp qt qs (.response status body json)
      = .error ("API returned status " ++ toString status ++ ": " ++ body) ∧
    queryDataStep addr p (fun _ _ => .response status body json)
        ⟨refID, .ok ⟨qt, qs, xp, dev⟩⟩
      = some (DataResponse.err statusInternal
          ("data fetch error: " ++ ("API returned status " ++ toString status ++ ": " ++ body))) := by
  have ha : addr ≠ "" := by
    intro h
    subst h
    simp [goHasPrefix] at h1
  have hg : getDeviceData addr dev xp qt qs (.response status body json)
      = .error ("API returned status " ++ toString status ++ ": " ++ body) := by
    simp [getDeviceData, ha, h1, h2, h3, h4]
  refine ⟨hg, ?_⟩
  simp [queryDataStep, hg]

/-- Witness for `non200_terminal`: upstream HTTP 500 with body `boom` yields
the server-error response whose message contains `500` and `boom`. -/
theorem non200_terminal_witness :
    queryDataStep "http://agg:8080" (fun _ => none)
        (fun _ _ => .response 500 "boom" (.ok []))
        ⟨"A", .ok ⟨"int", "", "/sys/load", "d1"⟩⟩
      = some (DataResponse.err 500 "data fetch error: API returned status 500: boom") ∧
    goStringsContains "data fetch error: API returned status 500: boom" "500" = true ∧
    goStringsContains "data fetch error: API returned status 500: boom" "boom" = true := by
  have h := (non200_terminal "http://agg:8080" "d1" "/sys/load" "int" "" "boom" "A" 500
      (.ok []) (fun _ => none) (by decide) (by decide) (by decide) (by decide)).2
  exact ⟨h.trans (by decide), by decide, by decide⟩

theorem optMap_eq_bind {α β : Type} (f : α → β) (x : Option α) :
    x.map f = x.bind (fun a => some (f a)) := by
  cases x <;> rfl

theorem queryDataGo_cons (addr : String) (p : String → Option GoTime)
    (net : String → String → NetResult) (q : GoQuery) (rest : List GoQuery) :
    queryDataGo addr p net (q :: rest)
      = (queryDataStep addr p net q).bind
          (fun r => (queryDataGo addr p net rest).map (fun rs => (q.refID, r) :: rs)) := by
  simp only [queryDataGo, queryDataStep]
  cases q.decoded with
  | error e => simp
  | ok qm =>
    cases hgd : getDeviceData addr qm.device qm.queryText qm.type qm.containsString
        (net qm.device qm.queryText) with
    | error e => simp [hgd]
    | ok dd =>
      simp only [hgd]
      by_cases ht : qm.type = "int"
      · simp only [ht, if_true]
        cases assembleLoop p "int" dd [] (FrameValues.ints []) <;> simp
      · by_cases hc : qm.type = "contains"
        · simp only [ht, hc, if_false, if_true]
          cases assembleLoop p "contains" dd [] (FrameValues.bools []) <;> simp
        · simp [ht, hc]

/-- Claim C6: `QueryData` processes each query of the batch independently,
recording exactly one response per query keyed by its `RefID`: the sequence
of recorded responses equals the per-query map of the independent handler,
so a decode or fetch failure of one query yields an error entry for that
`RefID` alone and leaves every sibling's processing unchanged. -/
theorem queryData_independent (addr : String) (p : String → Option GoTime)
    (net : String → String → NetResult) (qs : List GoQuery) :
    queryDataGo addr p net qs = perQueryResponses addr p net qs := by
  induction qs with
  | nil => rfl
  | cons q rest ih =>
    rw [queryDataGo_cons, ih]
    simp only [perQueryResponses, List.mapM_cons]
    cases queryDataStep addr p net q <;> simp [optMap_eq_bind]

/-! ## Claim C7 -/

theorem processRecords_unsupported_err (qt qs : String) (h4 : qt ≠ "int")
    (h5 : qt ≠ "contains") (records : List JRecord)
    (hx : ∃ r ∈ records, ∃ s, r.xml = GoDyn.str s) :
    processRecords qt qs records = .error ("unsupported query type: " ++ qt) := by
  induction records with
  | nil => simp at hx
  | cons r rest ih =>
    cases hxr : r.xml with
    | str x => simp [processRecords, hxr, h4, h5]
    | int n =>
      rcases hx with ⟨r2, hmem, s, hs⟩
      rcases List.mem_cons.mp hmem with heq | hmem2
      · subst heq
        rw [hxr] at hs
        cases hs
      · simpa [processRecords, hxr] using ih ⟨r2, hmem2, s, hs⟩
    | bool b =>
      rcases hx with ⟨r2, hmem, s, hs⟩
      rcases List.mem_cons.mp hmem with heq | hmem2
      · subst heq
        rw [hxr] at hs
        cases hs
      · simpa [processRecords, hxr] using ih ⟨r2, hmem2, s, hs⟩
    | null =>
      rcases hx with ⟨r2, hmem, s, hs⟩
      rcases List.mem_cons.mp hmem with heq | hmem2
      · subst heq
        rw [hxr] at hs
        cases hs
      · simpa [processRecords, hxr] using ih ⟨r2, hmem2, s, hs⟩

theorem processRecords_all_skipped (qt qs : String) (records : List JRecord)
    (hx : ∀ r ∈ records, ∀ s, r.xml ≠ GoDyn.str s) :
    processRecords qt qs records = .ok [] := by
  induction records with
  | nil => rfl
  | cons r rest ih =>
    have hrest : processRecords qt qs rest = .ok [] :=
      ih (fun r2 h2 s => hx r2 (List.mem_cons_of_mem r h2) s)
    cases hxr : r.xml with
    | str x => exact absurd hxr (hx r (List.mem_cons_self r rest) x)
    | int n => simp [processRecords, hxr, hrest]
    | bool b => simp [processRecords, hxr, hrest]
    | null => simp [processRecords, hxr, hrest]

/-- Claim C7, counterexample: with a valid configuration and an upstream 200
response containing one record with a string `xml` field, a query of the
unsupported type `bogus` is recorded as a server-error (internal, status
500) response — the fetcher's in-loop failure wrapped as a fetch error — not
as the client-error (bad request, status 400) response the claim states. -/
theorem unsupported_type_cex :
    queryDataStep "http://a" (fun _ => none)
        (fun _ _ => .response 200 "" (.ok [⟨GoDyn.str "<x/>", GoDyn.str "t"⟩]))
        ⟨"A", .ok ⟨"bogus", "", "/x", "d1"⟩⟩
      = some (DataResponse.err statusInternal
          "data fetch error: unsupported query type: bogus") ∧
    statusInternal ≠ statusBadRequest :=
  ⟨by decide, by decide⟩

/-- Claim C7 (amended): for every query whose type is neither `int` nor
`contains` that passes the fetcher's preconditions and receives a 200
upstream response with well-formed JSON, the handler records an error
response naming the unsupported type: a server-error (internal) response
wrapping the fetcher's message when at least one record carries a string
`xml` field, and a client-error (bad request) response when no record
does. -/
theorem unsupported_type_responses (addr dev xp qt qs refID body : String)
    (p : String → Option GoTime) (records : List JRecord)
    (h1 : (goHasPrefix addr "http://" || goHasPrefix addr "https://") = true)
    (h2 : dev ≠ "") (h3 : xp ≠ "") (h4 : qt ≠ "int") (h5 : qt ≠ "contains") :
    ((∃ r ∈ records, ∃ s, r.xml = GoDyn.str s) →
      queryDataStep addr p (fun _ _ => .response 200 body (.ok records))
          ⟨refID, .ok ⟨qt, qs, xp, dev⟩⟩
        = some (DataResponse.err statusInternal
            ("data fetch error: " ++ ("unsupported query type: " ++ qt)))) ∧
    ((∀ r ∈ records, ∀ s, r.xml ≠ GoDyn.str s) →
      queryDataStep addr p (fun _ _ => .response 200 body (.ok records))
          ⟨refID, .ok ⟨qt, qs, xp, dev⟩⟩
        = some (DataResponse.err statusBadRequest ("unsupported query type: " ++ qt))) := by
  have ha : addr ≠ "" := by
    intro h
    subst h
    simp [goHasPrefix] at h1
  have hgd : getDeviceData addr dev xp qt qs (.response 200 body (.ok records))
      = processRecords qt qs records := by
    simp [getDeviceData, ha, h1, h2, h3]
  constructor
  · intro hx
    have hpr := processRecords_unsupported_err qt qs h4 h5 records hx
    simp [queryDataStep, hgd, hpr]
  · intro hx
    have hpr := processRecords_all_skipped qt qs records hx
    simp [queryDataStep, hgd, hpr, h4, h5]

/-- Witness for `unsupported_type_responses`: both branches at concrete
inputs. -/
theorem unsupported_type_responses_witness :
    queryDataStep "http://a" (fun _ => none)
        (fun _ _ => .response 200 "" (.ok [⟨GoDyn.str "<x/>", GoDyn.str "t"⟩]))
        ⟨"B", .ok ⟨"bogus", "", "/x", "d1"⟩⟩
      = some (DataResponse.err 500 "data fetch error: unsupported query type: bogus") ∧
    queryDataStep "http://a" (fun _ => none)
        (fun _ _ => .response 200 "" (.ok [⟨GoDyn.null, GoDyn.str "t"⟩]))
        ⟨"B", .ok ⟨"bogus", "", "/x", "d1"⟩⟩
      = some (DataResponse.err 400 "unsupported query type: bogus") := by
  have hA := unsupported_type_responses "http://a" "d1" "/x" "bogus" "" "B" ""
    (fun _ => none) [⟨GoDyn.str "<x/>", GoDyn.str "t"⟩]
    (by decide) (by decide) (by decide) (by decide) (by decide)
  have hB := unsupported_type_responses "http://a" "d1" "/x" "bogus" "" "B" ""
    (fun _ => none) [⟨GoDyn.null, GoDyn.str "t"⟩]
    (by decide) (by decide) (by decide) (by decide) (by decide)
  have hxB : ∀ r ∈ [(⟨GoDyn.null, GoDyn.str "t"⟩ : JRecord)], ∀ s, r.xml ≠ GoDyn.str s := by
    intro r hr s h
    rw [List.mem_singleton] at hr
    subst hr
    cases h
  exact ⟨(hA.1 ⟨⟨GoDyn.str "<x/>", GoDyn.str "t"⟩, List.mem_singleton.mpr rfl, "<x/>", rfl⟩).trans
      (by decide),
    (hB.2 hxB).trans (by decide)⟩

/-! ## Claims C8, C9 -/

theorem assembleLoop_ints_eq (p : String → Option GoTime) (l : List (String × Int))
    (ts : List GoTime) (vs : List Int) :
    assembleLoop p "int" (l.map fun sv => ⟨GoDyn.str sv.1, GoDyn.int sv.2⟩)
        ts (FrameValues.ints vs)
      = some (ts ++ l.map (fun sv => goTimeParseDropErr p sv.1),
          FrameValues.ints (vs ++ l.map Prod.snd)) := by
  induction l generalizing ts vs with
  | nil => simp [assembleLoop]
  | cons sv rest ih =>
    simp [assembleLoop, appendValue, ih]

theorem assembleLoop_bools_eq (p : String → Option GoTime) (l : List (String × Bool))
    (ts : List GoTime) (vs : List Bool) :
    assembleLoop p "contains" (l.map fun sv => ⟨GoDyn.str sv.1, GoDyn.bool sv.2⟩)
        ts (FrameValues.bools vs)
      = some (ts ++ l.map (fun sv => goTimeParseDropErr p sv.1),
          FrameValues.bools (vs ++ l.map Prod.snd)) := by
  induction l generalizing ts vs with
  | nil => simp [assembleLoop]
  | cons sv rest ih =>
    simp [assembleLoop, appendValue, ih]

/-- Claim C8: for records with string timestamps, the frame-assembly loop
succeeds for both supported query types and fills the time column with the
outcome of the RFC3339 parse whose error is discarded: the parsed time when
the parse succeeds, the zero-value time when it fails — the record and the
query do not fail on a parse error. -/
theorem frame_timestamps_spec (p : String → Option GoTime) (li : List (String × Int))
    (lb : List (String × Bool)) :
    assembleLoop p "int" (li.map fun sv => ⟨GoDyn.str sv.1, GoDyn.int sv.2⟩)
        [] (FrameValues.ints [])
      = some (li.map (fun sv => goTimeParseDropErr p sv.1),
          FrameValues.ints (li.map Prod.snd)) ∧
    assembleLoop p "contains" (lb.map fun sv => ⟨GoDyn.str sv.1, GoDyn.bool sv.2⟩)
        [] (FrameValues.bools [])
      = some (lb.map (fun sv => goTimeParseDropErr p sv.1),
          FrameValues.bools (lb.map Prod.snd)) ∧
    (∀ s, p s = none → goTimeParseDropErr p s = GoTime.zero) ∧
    (∀ s t, p s = some t → goTimeParseDropErr p s = t) := by
  refine ⟨?_, ?_, fun s h => by simp [goTimeParseDropErr, h],
    fun s t h => by simp [goTimeParseDropErr, h]⟩
  · simpa using assembleLoop_ints_eq p li [] []
  · simpa using assembleLoop_bools_eq p lb [] []

/-- Witness for `frame_timestamps_spec`: a failing parse yields a zero-value
time entry and the frame row survives. -/
theorem frame_timestamps_spec_witness :
    assembleLoop (fun _ => none) "int" [⟨GoDyn.str "not-a-time", GoDyn.int 7⟩]
        [] (FrameValues.ints [])
      = some ([GoTime.zero], FrameValues.ints [7]) ∧
    goTimeParseDropErr (fun _ => none) "not-a-time" = GoTime.zero := by
  have h := frame_timestamps_spec (fun _ => none) [("not-a-time", 7)] []
  exact ⟨h.1.trans (by decide), h.2.2.1 "not-a-time" rfl⟩

/-- Claim C9: `CheckHealth` reports an error status exactly when the
settings JSON fails to decode or the decoded address is empty, and an ok
status otherwise, with the source's messages; the embedding takes no network
oracle because the source performs no network call. -/
theorem checkHealth_spec (u : Except String PluginSettings) :
    ((checkHealth u).status = HealthStatus.error ↔
      (∃ e, u = .error e) ∨ (∃ s, u = .ok s ∧ s.address = "")) ∧
    ((checkHealth u).status = HealthStatus.ok ↔ (∃ s, u = .ok s ∧ s.address ≠ "")) ∧
    (∀ e, checkHealth (.error e) = ⟨HealthStatus.error, "Unable to load settings"⟩) ∧
    (∀ s, s.address = "" → checkHealth (.ok s) = ⟨HealthStatus.error, "Address is missing"⟩) ∧
    (∀ s, s.address ≠ "" → checkHealth (.ok s) = ⟨HealthStatus.ok, "Data source is working"⟩) := by
  refine ⟨?_, ?_, fun e => rfl, fun s h => by simp [checkHealth, loadPluginSettings, h],
    fun s h => by simp [checkHealth, loadPluginSettings, h]⟩
  · cases u with
    | error e => simp [checkHealth, loadPluginSettings]
    | ok s =>
      by_cases h : s.address = "" <;> simp [checkHealth, loadPluginSettings, h]
  · cases u with
    | error e => simp [checkHealth, loadPluginSettings]
    | ok s =>
      by_cases h : s.address = "" <;> simp [checkHealth, loadPluginSettings, h]

/-- Witness for `checkHealth_spec`: concrete unhealthy and healthy
settings. -/
theorem checkHealth_spec_witness :
    checkHealth (.ok ⟨""⟩) = ⟨HealthStatus.error, "Address is missing"⟩ ∧
    checkHealth (.ok ⟨"http://agg:8080"⟩) = ⟨HealthStatus.ok, "Data source is working"⟩ ∧
    checkHealth (.error "bad json") = ⟨HealthStatus.error, "Unable to load settings"⟩ := by
  refine ⟨(checkHealth_spec (.ok ⟨""⟩)).2.2.2.1 ⟨""⟩ rfl,
    (checkHealth_spec (.ok ⟨"http://agg:8080"⟩)).2.2.2.2 ⟨"http://agg:8080"⟩ (by decide),
    (checkHealth_spec (.error "bad json")).2.2.1 "bad json"⟩

/-! ## Claim C10 -/

theorem getDeviceData_ok_inv {addr dev xp qt qs : String} {net : NetResult}
    {pts : List Point} (h : getDeviceData addr dev xp qt qs net = .ok pts) :
    ∃ status body recs, net = NetResult.response status body (.ok recs) ∧
      processRecords qt qs recs = .ok pts := by
  by_cases h1 : addr = ""
  · simp [getDeviceData, h1] at h
  · cases hb : (goHasPrefix addr "http://" || goHasPrefix addr "https://") with
    | false => simp [getDeviceData, h1, hb] at h
    | true =>
      by_cases h3 : dev = ""
      · simp [getDeviceData, h1, hb, h3] at h
      · by_cases h4 : xp = ""
        · simp [getDeviceData, h1, hb, h3, h4] at h
        · cases net with
          | requestError e => simp [getDeviceData, h1, hb, h3, h4] at h
          | transportError e => simp [getDeviceData, h1, hb, h3, h4] at h
          | readError e => simp [getDeviceData, h1, hb, h3, h4] at h
          | response status body json =>
            by_cases h5 : status = 200
            · cases json with
              | error e => simp [getDeviceData, h1, hb, h3, h4, h5] at h
              | ok recs =>
                refine ⟨status, body, recs, rfl, ?_⟩
                simpa [getDeviceData, h1, hb, h3, h4, h5] using h
            · simp [getDeviceData, h1, hb, h3, h4, h5] at h

theorem assembleLoop_ints_total (p : String → Option GoTime) (pts : List Point)
    (hs : ∀ pt ∈ pts, (∃ t, pt.timestamp = GoDyn.str t) ∧ ∃ n, pt.value = GoDyn.int n) :
    ∀ ts vs, assembleLoop p "int" pts ts (FrameValues.ints vs) ≠ none := by
  induction pts with
  | nil =>
    intro ts vs
    simp [assembleLoop]
  | cons pt rest ih =>
    intro ts vs
    obtain ⟨⟨t, ht⟩, n, hn⟩ := hs pt (List.mem_cons_self pt rest)
    simp only [assembleLoop, ht, hn, appendValue, if_true, reduceIte]
    exact ih (fun pt2 h2 => hs pt2 (List.mem_cons_of_mem pt h2)) _ _

theorem assembleLoop_bools_total (p : String → Option GoTime) (pts : List Point)
    (hs : ∀ pt ∈ pts, (∃ t, pt.timestamp = GoDyn.str t) ∧ ∃ b, pt.value = GoDyn.bool b) :
    ∀ ts vs, assembleLoop p "contains" pts ts (FrameValues.bools vs) ≠ none := by
  induction pts with
  | nil =>
    intro ts vs
    simp [assembleLoop]
  | cons pt rest ih =>
    intro ts vs
    obtain ⟨⟨t, ht⟩, b, hb⟩ := hs pt (List.mem_cons_self pt rest)
    simp only [assembleLoop, ht, hb, appendValue, reduceIte]
    exact ih (fun pt2 h2 => hs pt2 (List.mem_cons_of_mem pt h2)) _ _

theorem queryDataStep_ne_none (addr : String) (p : String → Option GoTime)
    (net : String → String → NetResult)
    (hnet : ∀ dev xp status body recs,
      net dev xp = NetResult.response status body (.ok recs) →
      ∀ r ∈ recs, (∃ s, r.xml = GoDyn.str s) → ∃ t, r.timestamp = GoDyn.str t)
    (q : GoQuery) : queryDataStep addr p net q ≠ none := by
  unfold queryDataStep
  cases q.decoded with
  | error e => simp
  | ok qm =>
    cases hgd : getDeviceData addr qm.device qm.queryText qm.type qm.containsString
        (net qm.device qm.queryText) with
    | error e => simp [hgd]
    | ok dd =>
      simp only [hgd]
      obtain ⟨st, body, recs, hresp, hproc⟩ := getDeviceData_ok_inv hgd
      by_cases ht : qm.type = "int"
      · have hshape : ∀ pt ∈ dd,
            (∃ t, pt.timestamp = GoDyn.str t) ∧ ∃ n, pt.value = GoDyn.int n := by
          rw [ht, processRecords_int_eq] at hproc
          have hdd : dd = recs.filterMap (fun r =>
              match r.xml with
              | GoDyn.str x => some ⟨r.timestamp, GoDyn.int (extractFirstInteger x)⟩
              | _ => none) := by
            cases hproc
            rfl
          intro pt hpt
          rw [hdd] at hpt
          obtain ⟨r, hr, hfr⟩ := List.mem_filterMap.mp hpt
          cases hxr : r.xml with
          | str x =>
            rw [hxr] at hfr
            obtain ⟨t, htt⟩ := hnet qm.device qm.queryText st body recs hresp r hr ⟨x, hxr⟩
            cases hfr
            exact ⟨⟨t, htt⟩, extractFirstInteger x, rfl⟩
          | int n =>
            rw [hxr] at hfr
            cases hfr
          | bool b =>
            rw [hxr] at hfr
            cases hfr
          | null =>
            rw [hxr] at hfr
            cases hfr
        have htot := assembleLoop_ints_total p dd hshape [] []
        simp only [ht, reduceIte]
        cases hal : assembleLoop p "int" dd [] (FrameValues.ints []) with
        | none => exact absurd hal htot
        | some r =>
          obtain ⟨ts, vs⟩ := r
          simp [hal]
      · by_cases hc : qm.type = "contains"
        · have hshape : ∀ pt ∈ dd,
              (∃ t, pt.timestamp = GoDyn.str t) ∧ ∃ b, pt.value = GoDyn.bool b := by
            rw [hc, processRecords_contains_eq] at hproc
            have hdd : dd = recs.filterMap (fun r =>
                match r.xml with
                | GoDyn.str x =>
                    some ⟨r.timestamp, GoDyn.bool (goStringsContains x qm.containsString)⟩
                | _ => none) := by
              cases hproc
              rfl
            intro pt hpt
            rw [hdd] at hpt
            obtain ⟨r, hr, hfr⟩ := List.mem_filterMap.mp hpt
            cases hxr : r.xml with
            | str x =>
              rw [hxr] at hfr
              obtain ⟨t, htt⟩ := hnet qm.device qm.queryText st body recs hresp r hr ⟨x, hxr⟩
              cases hfr
              exact ⟨⟨t, htt⟩, goStringsContains x qm.containsString, rfl⟩
            | int n =>
              rw [hxr] at hfr
              cases hfr
            | bool b =>
              rw [hxr] at hfr
              cases hfr
            | null =>
              rw [hxr] at hfr
              cases hfr
          have htot := assembleLoop_bools_total p dd hshape [] []
          simp only [ht, hc, reduceIte]
          cases hal : assembleLoop p "contains" dd [] (FrameValues.bools []) with
          | none => exact absurd hal htot
          | some r =>
            obtain ⟨ts, vs⟩ := r
            simp [hal]
        · simp [ht, hc]

/-- Claim C10: when every upstream record whose `xml` field is a string also
carries a string `timestamp` field, `QueryData` is total: the unchecked type
assertions of the frame assembly always succeed, and the handler returns a
response for the whole batch without panicking. -/
theorem queryData_total (addr : String) (p : String → Option GoTime)
    (net : String → String → NetResult) (qs : List GoQuery)
    (hnet : ∀ dev xp status body recs,
      net dev xp = NetResult.response status body (.ok recs) →
      ∀ r ∈ recs, (∃ s, r.xml = GoDyn.str s) → ∃ t, r.timestamp = GoDyn.str t) :
    queryDataGo addr p net qs ≠ none := by
  induction qs with
  | nil => simp [queryDataGo]
  | cons q rest ih =>
    rw [queryDataGo_cons]
    have hstep := queryDataStep_ne_none addr p net hnet q
    cases hs : queryDataStep addr p net q with
    | none => exact absurd hs hstep
    | some r =>
      cases hr : queryDataGo addr p net rest with
      | none => exact absurd hr ih
      | some rs => simp [hr]

/-- Witness for `queryData_total`: a one-query batch over an upstream record
with string `xml` and string `timestamp` fields completes. -/
theorem queryData_total_witness :
    queryDataGo "http://agg:8080" (fun _ => none)
        (fun _ _ => .response 200 ""
          (.ok [⟨GoDyn.str "<load>42</load>", GoDyn.str "2024-01-01T00:00:00Z"⟩]))
        [⟨"A", .ok ⟨"int", "", "/sys/load", "d1"⟩⟩] ≠ none := by
  apply queryData_total
  intro dev xp status body recs h r hr hx
  injection h with h1 h2 h3
  injection h3 with h4
  subst h4
  rw [List.mem_singleton] at hr
  subst hr
  exact ⟨"2024-01-01T00:00:00Z", rfl⟩
